import Mathlib

/-!
Verification of the sasview guiframe data registry, plugin base class and
file-converter panel logic, shallowly embedded from the Python sources.

Python dictionaries are modelled as insertion-ordered association lists with
unique keys: assignment updates an existing entry in place or appends a new
one, and deletion removes the entry with the given key.
-/

/-- Membership test for a key in an association-list dictionary
(`k in d` in Python). -/
def dictContains {K V : Type} [BEq K] : List (K × V) → K → Bool
  | [], _ => false
  | p :: rest, k => p.1 == k || dictContains rest k

/-- Lookup of a key in an association-list dictionary (`d[k]` in Python,
`none` standing for the `KeyError` case). -/
def dictGet {K V : Type} [BEq K] : List (K × V) → K → Option V
  | [], _ => none
  | p :: rest, k => if p.1 == k then some p.2 else dictGet rest k

/-- Assignment `d[k] = v` in Python: update in place when the key exists,
append otherwise. -/
def dictSet {K V : Type} [BEq K] : List (K × V) → K → V → List (K × V)
  | [], k, v => [(k, v)]
  | p :: rest, k, v => if p.1 == k then (k, v) :: rest else p :: dictSet rest k v

/-- Deletion `del d[k]` in Python: remove the entry with the given key
(on a dictionary keys are unique, so removing every entry with that key
is the same operation). -/
def dictDel {K V : Type} [BEq K] (d : List (K × V)) (k : K) : List (K × V) :=
  d.filter (fun p => !(p.1 == k))

theorem dictContains_set_self {K V : Type} [BEq K] [LawfulBEq K]
    (d : List (K × V)) (k : K) (v : V) :
    dictContains (dictSet d k v) k = true := by
  induction d with
  | nil => simp [dictSet, dictContains]
  | cons p rest ih =>
    by_cases h : p.1 == k
    · simp [dictSet, dictContains, h]
    · simp only [dictSet, h, if_neg, Bool.false_eq_true, not_false_iff, ite_false]
      simp [dictContains, ih]

theorem dictContains_set {K V : Type} [BEq K] [LawfulBEq K]
    (d : List (K × V)) (k j : K) (v : V) :
    dictContains (dictSet d k v) j = true ↔
      dictContains d j = true ∨ j = k := by
  induction d with
  | nil =>
    simp only [dictSet, dictContains, Bool.or_false, beq_iff_eq]
    constructor
    · intro h; exact Or.inr h.symm
    · rintro (h | h)
      · cases h
      · exact h.symm
  | cons p rest ih =>
    by_cases h : p.1 == k
    · have hk : p.1 = k := by exact eq_of_beq h
      subst hk
      simp only [dictSet, h, ite_true, dictContains, Bool.or_eq_true, beq_iff_eq]
      constructor
      · rintro (h1 | h1)
        · exact Or.inr h1.symm
        · exact Or.inl (Or.inr h1)
      · rintro ((h1 | h1) | h1)
        · exact Or.inl h1
        · exact Or.inr h1
        · exact Or.inl h1.symm
    · simp only [dictSet, h, Bool.false_eq_true, not_false_iff, ite_false,
        dictContains, Bool.or_eq_true] at *
      rw [ih]
      tauto

theorem dictContains_del {K V : Type} [BEq K] [LawfulBEq K]
    (d : List (K × V)) (k j : K) :
    dictContains (dictDel d k) j = true ↔
      dictContains d j = true ∧ j ≠ k := by
  induction d with
  | nil => simp [dictDel, dictContains]
  | cons p rest ih =>
    by_cases h : p.1 == k
    · have hk : p.1 = k := eq_of_beq h
      simp only [dictDel, List.filter, h, Bool.not_true] at *
      rw [ih]
      simp only [dictContains, Bool.or_eq_true, beq_iff_eq]
      constructor
      · rintro ⟨h1, h2⟩; exact ⟨Or.inr h1, h2⟩
      · rintro ⟨h1 | h1, h2⟩
        · exact absurd (hk ▸ h1) h2.symm
        · exact ⟨h1, h2⟩
    · have hk : p.1 ≠ k := fun hh => h (beq_of_eq hh)
      simp only [dictDel, List.filter, h, Bool.not_false] at *
      simp only [dictContains, Bool.or_eq_true, beq_iff_eq]
      rw [ih]
      constructor
      · rintro (h1 | ⟨h1, h2⟩)
        · exact ⟨Or.inl h1, fun hjk => hk (h1 ▸ hjk)⟩
        · exact ⟨Or.inr h1, h2⟩
      · rintro ⟨h1 | h1, h2⟩
        · exact Or.inl h1
        · exact Or.inr ⟨h1, h2⟩

theorem dictContains_del_of {K V : Type} [BEq K] [LawfulBEq K]
    (d : List (K × V)) (k j : K) (h : dictContains (dictDel d k) j = true) :
    dictContains d j = true :=
  ((dictContains_del d k j).mp h).1

theorem dictGet_set_self {K V : Type} [BEq K] [LawfulBEq K]
    (d : List (K × V)) (k : K) (v : V) :
    dictGet (dictSet d k v) k = some v := by
  induction d with
  | nil => simp [dictSet, dictGet]
  | cons p rest ih =>
    by_cases h : p.1 == k
    · simp [dictSet, dictGet, h]
    · simp [dictSet, dictGet, h, ih]

theorem dictGet_eq_some_of_contains {K V : Type} [BEq K] [LawfulBEq K]
    (d : List (K × V)) (k : K) (h : dictContains d k = true) :
    ∃ v, dictGet d k = some v := by
  induction d with
  | nil => simp [dictContains] at h
  | cons p rest ih =>
    by_cases hp : p.1 == k
    · exact ⟨p.2, by simp [dictGet, hp]⟩
    · have h2 : dictContains rest k = true := by simpa [dictContains, hp] using h
      obtain ⟨v, hv⟩ := ih h2
      exact ⟨v, by simp [dictGet, hp, hv]⟩

theorem dictContains_of_dictGet {K V : Type} [BEq K] [LawfulBEq K]
    (d : List (K × V)) (k : K) (v : V) (h : dictGet d k = some v) :
    dictContains d k = true := by
  induction d with
  | nil => simp [dictGet] at h
  | cons p rest ih =>
    by_cases hp : p.1 == k
    · simp [dictContains, hp]
    · have h2 : dictGet rest k = some v := by simpa [dictGet, hp] using h
      simp [dictContains, hp, ih h2]

theorem dictContains_of_mem {K V : Type} [BEq K] [LawfulBEq K]
    (d : List (K × V)) (k : K) (v : V) (h : (k, v) ∈ d) :
    dictContains d k = true := by
  induction d with
  | nil => cases h
  | cons p rest ih =>
    rcases List.mem_cons.mp h with h1 | h1
    · subst h1; simp [dictContains]
    · simp [dictContains, ih h1]

/-- A dataset as the data manager sees it: an identifier (assigned at load
time, `wx.NewId()` in `create_gui_data`) and the display name. -/
structure Data where
  id : Nat
  name : String
deriving Repr, DecidableEq

/-- Modelled from the spec: `DataState` (from `sans.guiframe.data_state`,
not among the reviewed sources) "wraps one loaded dataset plus its derived
theory results and originating file path". -/
structure DataState where
  data : Data
  theory_ids : List Nat := []
  path : Option String := none
deriving Repr, DecidableEq

/-- Python exceptions raised by the embedded code. -/
inductive PyErr where
  | attributeError
  | keyError
  | nameError
  | valueError
  | typeError
deriving Repr, DecidableEq

/-- The state of a `DataManager`.  `_selected_data` is an `Option` because
`delete_data` executes `del self._selected_data`, removing the attribute
itself; `none` is the attribute-deleted state, in which reading
`self._selected_data` raises `AttributeError`. -/
structure DataManager where
  _selected_data : Option (List (Nat × DataState))
  stored_data : List (Nat × DataState)
  data_name_dict : List (String × Nat)
deriving Repr, DecidableEq

/-- `DataManager.__init__`: empty selection, empty registry, empty
name-disambiguation dictionary. -/
def freshManager : DataManager :=
  { _selected_data := some [], stored_data := [], data_name_dict := [] }

/-- Modelled from the spec: `parse_name` (from `sans.guiframe.utils`, not
among the reviewed sources).  The spec treats derived display names as
opaque labels, so the parsing step is modelled as the identity. -/
def parse_name (name : String) (expression : String) : String :=
  name

/-- The first steps of `DataManager.rename`: run the name through
`parse_name`, then truncate at the first `[` (`name.find("[")` returning -1
makes the slice the whole string). -/
def display_base (name : String) : String :=
  ((parse_name name "_").toList.takeWhile (fun c => c != '[')).asString

/-- `DataManager.rename`: derive the base label, then either record a fresh
base name with counter 0 or bump the counter and suffix `" [n]"`.  Returns
the label together with the updated manager. -/
def DataManager.rename (m : DataManager) (name : String) : String × DataManager :=
  let name2 := display_base name
  if dictContains m.data_name_dict name2 then
    let n1 := (dictGet m.data_name_dict name2).getD 0 + 1
    (name2 ++ " [" ++ toString n1 ++ "]",
      { m with data_name_dict := dictSet m.data_name_dict name2 n1 })
  else
    (name2, { m with data_name_dict := dictSet m.data_name_dict name2 0 })

/-- Loop body of `DataManager.add_data`: overwrite the stored `DataState`'s
dataset if the identifier is already registered (with a log notice),
register a fresh `DataState` otherwise, and select the entry either way.
The accumulator is the pair (stored_data, _selected_data). -/
def addOne (st : List (Nat × DataState) × List (Nat × DataState)) (data : Data) :
    List (Nat × DataState) × List (Nat × DataState) :=
  match dictGet st.1 data.id with
  | some old =>
    let data_state := { old with data := data }
    (dictSet st.1 data.id data_state, dictSet st.2 data.id data_state)
  | none =>
    let data_state : DataState := { data := data }
    (dictSet st.1 data.id data_state, dictSet st.2 data.id data_state)

/-- `DataManager.add_data`: reset `_selected_data` to `{}`, then fold the
loop body over the received list. -/
def DataManager.add_data (m : DataManager) (data_list : List Data) : DataManager :=
  let st := data_list.foldl addOne (m.stored_data, [])
  { m with stored_data := st.1, _selected_data := some st.2 }

/-- `DataManager.get_by_id`: rebuild `_selected_data` from the stored
entries whose identifier appears in the list, and return it. -/
def DataManager.get_by_id (m : DataManager) (id_list : List Nat) :
    DataManager × List (Nat × DataState) :=
  let sel := id_list.foldl
    (fun sel i =>
      match dictGet m.stored_data i with
      | some data_state => dictSet sel i data_state
      | none => sel)
    []
  ({ m with _selected_data := some sel }, sel)

/-- `DataManager.get_by_name`: rebuild `_selected_data` from the stored
entries whose dataset name appears in the list (a linear scan of
`stored_data` per name), and return it. -/
def DataManager.get_by_name (m : DataManager) (name_list : List String) :
    DataManager × List (Nat × DataState) :=
  let sel := name_list.foldl
    (fun sel nm =>
      m.stored_data.foldl
        (fun sel2 p => if p.2.data.name == nm then dictSet sel2 p.1 p.2 else sel2)
        sel)
    []
  ({ m with _selected_data := some sel }, sel)

/-- `DataManager.delete_data`: drop the identifier from `stored_data`; then
`if data_id in self._selected_data` (an `AttributeError` when the attribute
is already gone) and, when it is present, `del self._selected_data` —
deleting the whole attribute, not the entry. -/
def DataManager.delete_data (m : DataManager) (data_id : Nat)
    (theory_id : Nat) (delete_all : Bool) : DataManager × Option PyErr :=
  let stored1 := if dictContains m.stored_data data_id then
    dictDel m.stored_data data_id else m.stored_data
  let m1 := { m with stored_data := stored1 }
  match m1._selected_data with
  | none => (m1, some PyErr.attributeError)
  | some sel =>
    if dictContains sel data_id then
      ({ m1 with _selected_data := none }, none)
    else
      (m1, none)

/-- `DataManager.delete_by_id`: for each identifier, drop it from
`stored_data` if registered and from `_selected_data` if selected (the
selection membership test raises `AttributeError` when the attribute has
been deleted, aborting the loop there). -/
def DataManager.delete_by_id : DataManager → List Nat → DataManager × Option PyErr
  | m, [] => (m, none)
  | m, i :: rest =>
    let stored1 := if dictContains m.stored_data i then
      dictDel m.stored_data i else m.stored_data
    let m1 := { m with stored_data := stored1 }
    match m1._selected_data with
    | none => (m1, some PyErr.attributeError)
    | some sel =>
      let m2 := if dictContains sel i then
        { m1 with _selected_data := some (dictDel sel i) } else m1
      DataManager.delete_by_id m2 rest

/-- Inner loop of `DataManager.delete_by_name` for one name: scan the
stored entries; on the first entry whose dataset name matches, execute
`del self._selected_data[id]` (`AttributeError` when the attribute is gone,
`KeyError` when the identifier is not selected) and then
`del self.stored_data[data.id]`, which evaluates the out-of-scope name
`data` and raises `NameError`. -/
def deleteByNameScan (m : DataManager) (selected_name : String) :
    List (Nat × DataState) → DataManager × Option PyErr
  | [] => (m, none)
  | p :: rest =>
    if p.2.data.name == selected_name then
      match m._selected_data with
      | none => (m, some PyErr.attributeError)
      | some sel =>
        if dictContains sel p.1 then
          ({ m with _selected_data := some (dictDel sel p.1) }, some PyErr.nameError)
        else
          (m, some PyErr.keyError)
    else
      deleteByNameScan m selected_name rest

/-- `DataManager.delete_by_name`: run the scan for each requested name,
stopping at the first raised exception. -/
def DataManager.delete_by_name : DataManager → List String → DataManager × Option PyErr
  | m, [] => (m, none)
  | m, nm :: rest =>
    match deleteByNameScan m nm m.stored_data with
    | (m1, none) => DataManager.delete_by_name m1 rest
    | (m1, some e) => (m1, some e)

/-- `DataManager.get_selected_data`: return `self._selected_data`
(`AttributeError` when the attribute has been deleted). -/
def DataManager.get_selected_data (m : DataManager) :
    Except PyErr (List (Nat × DataState)) :=
  match m._selected_data with
  | none => Except.error PyErr.attributeError
  | some sel => Except.ok sel

/-- The registry operations a client can invoke on a `DataManager`. -/
inductive Op where
  | add (data_list : List Data)
  | getById (id_list : List Nat)
  | getByName (name_list : List String)
  | delData (data_id theory_id : Nat) (delete_all : Bool)
  | delById (id_list : List Nat)
  | delByName (name_list : List String)
deriving Repr, DecidableEq

/-- One call on the manager: the state after the call (including the
partial mutations preceding a raised exception) plus the exception, if
any. -/
def stepOp (m : DataManager) : Op → DataManager × Option PyErr
  | Op.add l => (m.add_data l, none)
  | Op.getById l => ((m.get_by_id l).1, none)
  | Op.getByName l => ((m.get_by_name l).1, none)
  | Op.delData i t a => m.delete_data i t a
  | Op.delById l => m.delete_by_id l
  | Op.delByName l => m.delete_by_name l

/-- The state reached after a sequence of calls (exceptions propagate to
the caller but leave the partially-mutated object behind, so later calls
continue from it). -/
def runOps (m : DataManager) (ops : List Op) : DataManager :=
  ops.foldl (fun st op => (stepOp st op).1) m

/-- A sequence of `add_data` calls, one batch per call. -/
def runAdds (m : DataManager) (batches : List (List Data)) : DataManager :=
  batches.foldl DataManager.add_data m

/-- The dictionary `ask_frame_range` returns: the selected frame numbers,
the increment, and the single-file flag. -/
structure FrameParams where
  frames : List Int
  inc : Option Int
  file : Bool
deriving Repr, DecidableEq

/-- One round of the modal frame-range dialog: the user either cancels or
presses OK with the contents of the three text inputs (`none` when `int()`
would fail on the text) and the single-file radio button. -/
inductive DialogEvent where
  | cancel
  | ok (first last increment : Option Int) (single : Bool)
deriving Repr, DecidableEq

/-- Python `range(start, stop, step)` for a positive step: the values
`start + k * step` strictly below `stop` (the only form the panel uses;
`increment` is validated to be at least 1). -/
def pyRange (start stop step : Int) : List Int :=
  if 0 < step ∧ start < stop then
    (List.range ((stop - start - 1).toNat / step.toNat + 1)).map
      (fun k => start + (k : Int) * step)
  else []

/-- The `while not valid_input` loop of `ConverterPanel.ask_frame_range`,
one dialog round per event.  `single_file` starts as `True`, is overwritten
on every OK round that parses (when the format is not BSL), and is the
value the cancel branch returns; the cancel branch returns frames `[]` and
increment `None` literally.  A validated round returns
`range(first_frame, last_frame + increment, increment)`.  `none` means the
event list ran out with the dialog still open. -/
def askLoop (n_frames : Int) (is_bsl : Bool) :
    List DialogEvent → Bool → Option FrameParams
  | [], _ => none
  | DialogEvent.cancel :: _, single_file =>
    some { frames := [], inc := none, file := single_file }
  | DialogEvent.ok f l i s :: rest, single_file =>
    match f, l, i with
    | some first_frame, some last_frame, some increment =>
      let single_file := if is_bsl then single_file else s
      if last_frame < 0 ∨ first_frame < 0 then
        askLoop n_frames is_bsl rest single_file
      else if increment < 1 then
        askLoop n_frames is_bsl rest single_file
      else if first_frame > last_frame then
        askLoop n_frames is_bsl rest single_file
      else if last_frame ≥ n_frames then
        askLoop n_frames is_bsl rest single_file
      else
        some { frames := pyRange first_frame (last_frame + increment) increment,
               inc := some increment, file := single_file }
    | _, _, _ => askLoop n_frames is_bsl rest single_file

/-- `ConverterPanel.ask_frame_range`, with the user's dialog rounds made
explicit. -/
def ask_frame_range (n_frames : Int) (is_bsl : Bool)
    (events : List DialogEvent) : Option FrameParams :=
  askLoop n_frames is_bsl events true

/-- Stated from the spec, for comparison with the code: the frame-range
dialog accepts exactly when first/last frame are nonnegative, the increment
is at least 1, first ≤ last, and last < total frame count. -/
def spec_frame_accept (first last increment n_frames : Int) : Bool :=
  decide (0 ≤ first) && decide (0 ≤ last) && decide (1 ≤ increment) &&
    decide (first ≤ last) && decide (last < n_frames)

/-- The frame-selection slice of `ConverterPanel.on_convert` for the
ASCII/OTOKO path: with more than 3 frames the user is asked for a range,
and an empty `frames` list makes `on_convert` return before any metadata
preparation or write; otherwise only frame 0 is converted.  `none` means
`on_convert` returned without writing an output file. -/
def on_convert_frame_selection (n_frames : Int) (params : FrameParams) :
    Option (List Int) :=
  if n_frames > 3 then
    (if params.frames = [] then none else some params.frames)
  else
    some [0]

/-- Blank-separated tokens of a list of characters (the whitespace
splitting `np.loadtxt` applies to each line); the accumulator holds the
current token reversed. -/
def tokenizeAux : List Char → List Char → List String
  | [], acc => if acc.isEmpty then [] else [acc.reverse.asString]
  | c :: rest, acc =>
    if c == ' ' || c == '\t' then
      if acc.isEmpty then tokenizeAux rest []
      else acc.reverse.asString :: tokenizeAux rest []
    else tokenizeAux rest (c :: acc)

/-- Tokens of one line under `np.loadtxt`: split on blanks, drop empty
tokens. -/
def splitTokens (line : String) : List String :=
  tokenizeAux line.toList []

/-- `np.loadtxt(filename, dtype=str)`, modelled on the token level: one
token row per non-blank line (comment handling is not modelled; the panel's
inputs are plain numeric columns). -/
def loadtxtRows (lines : List String) : List (List String) :=
  (lines.map splitTokens).filter (fun r => !r.isEmpty)

def allDigits (l : List Char) : Bool :=
  l.all (fun c => c.isDigit)

def digitsVal (l : List Char) : Nat :=
  l.foldl (fun a c => a * 10 + (c.toNat - 48)) 0

/-- Decimal part of `pyFloat`: digits with an optional single point. -/
def parseUnsigned (l : List Char) : Option Rat :=
  let intPart := l.takeWhile (fun c => c != '.')
  match l.dropWhile (fun c => c != '.') with
  | [] =>
    if intPart ≠ [] ∧ allDigits intPart then
      some ((digitsVal intPart : Nat) : Rat)
    else none
  | _ :: frac =>
    if allDigits intPart ∧ allDigits frac ∧ (intPart ≠ [] ∨ frac ≠ []) ∧
        frac.all (fun c => c != '.') then
      some ((digitsVal intPart : Rat) + (digitsVal frac : Rat) / ((10 : Rat) ^ frac.length))
    else none

/-- Python `float(s)` (equally, numpy's string-to-float conversion),
modelled for simple decimal literals: optional sign, digits, optional
fractional part.  Exponents and the special values are not needed for the
single-column inputs considered here; the number is modelled exactly as a
rational. -/
def pyFloat (s : String) : Option Rat :=
  let stripped := ((s.toList.dropWhile (fun c => c == ' ' || c == '\t')).reverse.dropWhile
    (fun c => c == ' ' || c == '\t')).reverse
  match stripped with
  | [] => none
  | '+' :: rest => parseUnsigned rest
  | '-' :: rest => (parseUnsigned rest).map (fun q => -q)
  | cs => parseUnsigned cs

/-- Result of `extract_ascii_data`: the numeric column, or the message of
the raised exception. -/
inductive ExtractResult where
  | ok (values : List Rat)
  | error (msg : String)
deriving Repr, DecidableEq

/-- `np.array(data, dtype=np.float32)` over string tokens: convert each,
raising numpy's conversion error on the first token `float` rejects. -/
def npFloatList : List String → ExtractResult
  | [] => ExtractResult.ok []
  | s :: rest =>
    match pyFloat s with
    | none => ExtractResult.error ("could not convert string to float: " ++ s)
    | some v =>
      match npFloatList rest with
      | ExtractResult.ok vs => ExtractResult.ok (v :: vs)
      | ExtractResult.error m => ExtractResult.error m

/-- Python `s[0:-1]`. -/
def strDropLast (s : String) : String :=
  (s.toList.dropLast).asString

/-- Python `filename.split('\\')[-1]`, as used in the panel's error
messages: the suffix after the last backslash. -/
def basenameBackslash (filename : String) : String :=
  ((filename.toList.reverse.takeWhile (fun c => c != '\\')).reverse).asString

/-- `ConverterPanel.extract_ascii_data` on the lines of the file: load the
tokens; reject data whose shape is not one-dimensional (a single
single-token row is a 0-d scalar, several multi-token rows are 2-d); if the
first token is not a float, strip the final character from every token when
it is a comma or semi-colon, or raise the descriptive line-terminator
error; finally convert the tokens to floats. -/
def extract_ascii_data (filename : String) (lines : List String) : ExtractResult :=
  let rows := loadtxtRows lines
  match rows with
  | [] => ExtractResult.error "index 0 is out of bounds for axis 0 with size 0"
  | r0 :: rest =>
    if rest.any (fun r => r.length != r0.length) then
      ExtractResult.error "loadtxt: Wrong number of columns"
    else
      let shape1d : Option (List String) :=
        if rest.isEmpty then
          (if r0.length == 1 then none else some r0)
        else
          (if r0.length == 1 then some ((r0 :: rest).map (fun r => r.headD "")) else none)
      match shape1d with
      | none =>
        ExtractResult.error ("Error reading " ++ basenameBackslash filename ++
          ": Only one column of data is allowed")
      | some data =>
        let d0 := data.headD ""
        if (pyFloat d0).isSome then
          npFloatList data
        else
          let end_char := d0.toList.getLastD ' '
          if end_char == ',' || end_char == ';' then
            npFloatList (data.map strDropLast)
          else
            ExtractResult.error ("Error reading " ++ basenameBackslash filename ++
              ": Lines must end with a digit, comma or semi-colon")

/-- The state a `PluginBase` instance carries (`PluginBase.__init__`).
`parent` and `state_reader` are `None` until set; their pointees are
opaque, so they are modelled as optional handles. -/
structure PluginBase where
  _always_active : Bool
  sub_menu : String
  standalone : Bool
  parent : Option Nat
  state_reader : Option Nat
  _extensions : String
  perspective : List String
deriving Repr, DecidableEq

/-- `PluginBase.__init__(name="Test_plugin", standalone=True)`. -/
def PluginBase.init (name : String) (standalone : Bool) : PluginBase :=
  { _always_active := false, sub_menu := name, standalone := standalone,
    parent := none, state_reader := none, _extensions := "", perspective := [] }

/-- A `PluginBase` instance that overrides nothing, built with the default
constructor arguments. -/
def defaultPlugin : PluginBase :=
  PluginBase.init "Test_plugin" true

def PluginBase.clear_panel (p : PluginBase) : PluginBase := p

def PluginBase.get_extensions (p : PluginBase) : Option Nat × String :=
  (p.state_reader, p._extensions)

def PluginBase.can_load_data (_ : PluginBase) : Bool := false

def PluginBase.use_data (_ : PluginBase) : Bool := true

def PluginBase.is_in_use (_ : PluginBase) (_ : Nat) : Bool := false

def PluginBase.delete_data (p : PluginBase) (_ : Nat) : PluginBase := p

/-- `raise NotImplemented`: `NotImplemented` is not an exception class, so
Python raises a `TypeError`; either way the call raises. -/
def PluginBase.load_data (_ : PluginBase) : Except PyErr Unit :=
  Except.error PyErr.typeError

/-- `raise NotImplemented`, as in `load_data`. -/
def PluginBase.load_folder (_ : PluginBase) : Except PyErr Unit :=
  Except.error PyErr.typeError

def PluginBase.set_is_active (p : PluginBase) (active : Bool) : PluginBase :=
  { p with _always_active := active }

def PluginBase.is_always_active (p : PluginBase) : Bool :=
  p._always_active

def PluginBase.populate_menu (_ : PluginBase) (_parent : Nat) : List Nat := []

def PluginBase.get_panels (p : PluginBase) (parent : Nat) : PluginBase × List Nat :=
  ({ p with parent := some parent }, [])

def PluginBase.get_tools (_ : PluginBase) : List Nat := []

def PluginBase.get_context_menu (_ : PluginBase) : List Nat := []

def PluginBase.get_perspective (p : PluginBase) : List String :=
  p.perspective

/-- `on_perspective` dereferences `self.parent`, which is `None` until
`get_panels` has run: on a default instance that is an `AttributeError` on
`None`. -/
def PluginBase.on_perspective (p : PluginBase) : Except PyErr Unit :=
  match p.parent with
  | none => Except.error PyErr.attributeError
  | some _ => Except.ok ()

def PluginBase.post_init (p : PluginBase) : PluginBase := p

def PluginBase.set_default_perspective (p : PluginBase) : Bool :=
  if p.standalone then true else false

def PluginBase.set_state (p : PluginBase) : PluginBase := p

def PluginBase.set_data (p : PluginBase) (_ : List Nat) : PluginBase := p

/-- `set_theory` raises `ValueError` ("... does not support import theory")
unconditionally. -/
def PluginBase.set_theory (_ : PluginBase) (_ : List Nat) : Except PyErr Unit :=
  Except.error PyErr.valueError

def PluginBase.on_set_state_helper (p : PluginBase) : PluginBase := p

theorem foldl_preserves {α β : Type} (P : α → Prop) (f : α → β → α)
    (h : ∀ st x, P st → P (f st x)) :
    ∀ (l : List β) (st : α), P st → P (l.foldl f st) := by
  intro l
  induction l with
  | nil => intro st hst; exact hst
  | cons x rest ih => intro st hst; exact ih (f st x) (h st x hst)

theorem addOne_stored_mono (st : List (Nat × DataState) × List (Nat × DataState))
    (d : Data) (j : Nat) (h : dictContains st.1 j = true) :
    dictContains (addOne st d).1 j = true := by
  unfold addOne
  cases hget : dictGet st.1 d.id <;>
    exact (dictContains_set _ _ _ _).mpr (Or.inl h)

theorem addOne_stored_self (st : List (Nat × DataState) × List (Nat × DataState))
    (d : Data) : dictContains (addOne st d).1 d.id = true := by
  unfold addOne
  cases hget : dictGet st.1 d.id <;> exact dictContains_set_self _ _ _

theorem addOne_selected_sub (st : List (Nat × DataState) × List (Nat × DataState))
    (d : Data) (h : ∀ j, dictContains st.2 j = true → dictContains st.1 j = true) :
    ∀ j, dictContains (addOne st d).2 j = true → dictContains (addOne st d).1 j = true := by
  unfold addOne
  cases hget : dictGet st.1 d.id <;>
  · intro j hj
    rcases (dictContains_set _ _ _ _).mp hj with h1 | h1
    · exact (dictContains_set _ _ _ _).mpr (Or.inl (h j h1))
    · subst h1; exact dictContains_set_self _ _ _

theorem add_data_stored_mono (m : DataManager) (l : List Data) (j : Nat)
    (h : dictContains m.stored_data j = true) :
    dictContains (m.add_data l).stored_data j = true := by
  unfold DataManager.add_data
  exact foldl_preserves (fun st => dictContains st.1 j = true) addOne
    (fun st d => addOne_stored_mono st d j) l (m.stored_data, []) h

theorem add_data_stored_covers (m : DataManager) (l : List Data) (d : Data)
    (hd : d ∈ l) : dictContains (m.add_data l).stored_data d.id = true := by
  unfold DataManager.add_data
  suffices h : ∀ (l : List Data) (st : List (Nat × DataState) × List (Nat × DataState)),
      d ∈ l → dictContains (l.foldl addOne st).1 d.id = true by
    exact h l (m.stored_data, []) hd
  intro l
  induction l with
  | nil => intro st h; cases h
  | cons x rest ih =>
    intro st h
    rcases List.mem_cons.mp h with h1 | h1
    · subst h1
      exact foldl_preserves (fun st => dictContains st.1 d.id = true) addOne
        (fun st x => addOne_stored_mono st x d.id) rest (addOne st d)
        (addOne_stored_self st d)
    · exact ih (addOne st x) h1

theorem runAdds_stored_mono (m : DataManager) (batches : List (List Data)) (j : Nat)
    (h : dictContains m.stored_data j = true) :
    dictContains (runAdds m batches).stored_data j = true := by
  unfold runAdds
  exact foldl_preserves (fun st => dictContains st.stored_data j = true)
    DataManager.add_data (fun st l => add_data_stored_mono st l j) batches m h

theorem get_by_id_singleton (m : DataManager) (i : Nat)
    (h : dictContains m.stored_data i = true) :
    dictContains (m.get_by_id [i]).2 i = true := by
  obtain ⟨ds, hds⟩ := dictGet_eq_some_of_contains m.stored_data i h
  simp [DataManager.get_by_id, hds, dictContains_set_self]

/-- The selection-subset invariant of the spec: every identifier in
`_selected_data` (when the attribute exists) is also in `stored_data`. -/
def SelectedSub (m : DataManager) : Prop :=
  ∀ sel j, m._selected_data = some sel → dictContains sel j = true →
    dictContains m.stored_data j = true

theorem selectedSub_fresh : SelectedSub freshManager := by
  intro sel j hsel hj
  simp [freshManager] at hsel
  subst hsel
  simp [dictContains] at hj

theorem selectedSub_add_data (m : DataManager) (l : List Data) :
    SelectedSub (m.add_data l) := by
  intro sel j hsel hj
  unfold DataManager.add_data at hsel ⊢
  simp only at hsel
  have hsub : ∀ j, dictContains (l.foldl addOne (m.stored_data, [])).2 j = true →
      dictContains (l.foldl addOne (m.stored_data, [])).1 j = true := by
    refine foldl_preserves
      (fun st => ∀ j, dictContains st.2 j = true → dictContains st.1 j = true)
      addOne (fun st d h => addOne_selected_sub st d h) l (m.stored_data, []) ?_
    intro j hj
    simp [dictContains] at hj
  have hsel2 : sel = (l.foldl addOne (m.stored_data, [])).2 := by
    exact (Option.some.injEq _ _).mp hsel.symm
  subst hsel2
  exact hsub j hj

theorem selectedSub_get_by_id (m : DataManager) (l : List Nat) :
    SelectedSub (m.get_by_id l).1 := by
  intro sel j hsel hj
  unfold DataManager.get_by_id at hsel ⊢
  simp only at hsel
  have hsub : ∀ j, dictContains (l.foldl
      (fun sel i =>
        match dictGet m.stored_data i with
        | some data_state => dictSet sel i data_state
        | none => sel) []) j = true →
      dictContains m.stored_data j = true := by
    refine foldl_preserves
      (fun sel => ∀ j, dictContains sel j = true → dictContains m.stored_data j = true)
      _ ?_ l [] ?_
    · intro sel i h j hj
      cases hget : dictGet m.stored_data i with
      | none => simp only [hget] at hj; exact h j hj
      | some ds =>
        simp only [hget] at hj
        rcases (dictContains_set _ _ _ _).mp hj with h1 | h1
        · exact h j h1
        · subst h1; exact dictContains_of_dictGet _ _ _ hget
    · intro j hj; simp [dictContains] at hj
  have hsel2 : sel = _ := (Option.some.injEq _ _).mp hsel.symm
  subst hsel2
  exact hsub j hj

theorem get_by_name_inner_sub (m : DataManager) (nm : String)
    (pairs : List (Nat × DataState))
    (hpairs : ∀ p ∈ pairs, dictContains m.stored_data p.1 = true) :
    ∀ sel, (∀ j, dictContains sel j = true → dictContains m.stored_data j = true) →
      ∀ j, dictContains (pairs.foldl
        (fun sel2 p => if p.2.data.name == nm then dictSet sel2 p.1 p.2 else sel2)
        sel) j = true → dictContains m.stored_data j = true := by
  induction pairs with
  | nil => intro sel h j hj; exact h j hj
  | cons p rest ih =>
    intro sel h j hj
    refine ih (fun q hq => hpairs q (List.mem_cons_of_mem p hq)) _ ?_ j hj
    intro j2 hj2
    by_cases hnm : p.2.data.name == nm
    · simp only [hnm, if_pos] at hj2
      rcases (dictContains_set _ _ _ _).mp hj2 with h1 | h1
      · exact h j2 h1
      · subst h1; exact hpairs p (List.mem_cons_self p rest)
    · simp only [hnm] at hj2
      exact h j2 hj2

theorem selectedSub_get_by_name (m : DataManager) (l : List String) :
    SelectedSub (m.get_by_name l).1 := by
  intro sel j hsel hj
  unfold DataManager.get_by_name at hsel ⊢
  simp only at hsel
  have hsub : ∀ j, dictContains (l.foldl
      (fun sel nm =>
        m.stored_data.foldl
          (fun sel2 p => if p.2.data.name == nm then dictSet sel2 p.1 p.2 else sel2)
          sel) []) j = true → dictContains m.stored_data j = true := by
    refine foldl_preserves
      (fun sel => ∀ j, dictContains sel j = true → dictContains m.stored_data j = true)
      _ ?_ l [] ?_
    · intro sel nm h
      exact get_by_name_inner_sub m nm m.stored_data
        (fun p hp => dictContains_of_mem _ _ _ hp) sel h
    · intro j hj; simp [dictContains] at hj
  have hsel2 : sel = _ := (Option.some.injEq _ _).mp hsel.symm
  subst hsel2
  exact hsub j hj

theorem selectedSub_delete_data (m : DataManager) (i t : Nat) (a : Bool)
    (h : SelectedSub m) : SelectedSub (m.delete_data i t a).1 := by
  cases hsel : m._selected_data with
  | none =>
    intro sel j hs hj
    simp [DataManager.delete_data, hsel] at hs
  | some sel0 =>
    by_cases hc : dictContains sel0 i
    · intro sel j hs hj
      simp [DataManager.delete_data, hsel, hc] at hs
    · intro sel j hs hj
      simp [DataManager.delete_data, hsel, hc] at hs
      subst hs
      simp [DataManager.delete_data, hsel, hc]
      have hstored : dictContains m.stored_data j = true := h _ j hsel hj
      by_cases hci : dictContains m.stored_data i
      · simp only [hci, if_pos]
        refine (dictContains_del _ _ _).mpr ⟨hstored, ?_⟩
        intro hji
        subst hji
        exact hc hj
      · simp only [hci, Bool.false_eq_true, if_false, ite_false]
        exact hstored

theorem selectedSub_delete_by_id (l : List Nat) :
    ∀ m : DataManager, SelectedSub m → SelectedSub (m.delete_by_id l).1 := by
  induction l with
  | nil => intro m h; exact h
  | cons i rest ih =>
    intro m h
    cases hsel : m._selected_data with
    | none =>
      intro sel j hs hj
      simp [DataManager.delete_by_id, hsel] at hs
    | some sel0 =>
      by_cases hc : dictContains sel0 i
      · have he : m.delete_by_id (i :: rest) = DataManager.delete_by_id
            { m with
              stored_data := if dictContains m.stored_data i = true then
                dictDel m.stored_data i else m.stored_data,
              _selected_data := some (dictDel sel0 i) } rest := by
          simp [DataManager.delete_by_id, hsel, hc]
        rw [he]
        refine ih _ ?_
        intro sel j hs hj
        simp only [Option.some.injEq] at hs
        subst hs
        simp only
        obtain ⟨hj0, hji⟩ := (dictContains_del _ _ _).mp hj
        have hstored : dictContains m.stored_data j = true := h sel0 j hsel hj0
        by_cases hci : dictContains m.stored_data i
        · simp only [hci, if_pos]
          exact (dictContains_del _ _ _).mpr ⟨hstored, hji⟩
        · simp only [hci, Bool.false_eq_true, if_false, ite_false]
          exact hstored
      · have he : m.delete_by_id (i :: rest) = DataManager.delete_by_id
            { m with
              stored_data := if dictContains m.stored_data i = true then
                dictDel m.stored_data i else m.stored_data } rest := by
          simp [DataManager.delete_by_id, hsel, hc]
        rw [he]
        refine ih _ ?_
        intro sel j hs hj
        simp only [hsel, Option.some.injEq] at hs
        subst hs
        simp only
        have hstored : dictContains m.stored_data j = true := h _ j hsel hj
        by_cases hci : dictContains m.stored_data i
        · simp only [hci, if_pos]
          refine (dictContains_del _ _ _).mpr ⟨hstored, ?_⟩
          intro hji
          subst hji
          exact hc hj
        · simp only [hci, Bool.false_eq_true, if_false, ite_false]
          exact hstored

theorem selectedSub_scan (nm : String) (pairs : List (Nat × DataState)) :
    ∀ m : DataManager, SelectedSub m → SelectedSub (deleteByNameScan m nm pairs).1 := by
  induction pairs with
  | nil => intro m h; exact h
  | cons p rest ih =>
    intro m h
    by_cases hnm : p.2.data.name == nm
    · cases hsel : m._selected_data with
      | none =>
        intro sel j hs hj
        simp [deleteByNameScan, hnm, hsel] at hs
      | some sel0 =>
        by_cases hc : dictContains sel0 p.1
        · intro sel j hs hj
          simp [deleteByNameScan, hnm, hsel, hc] at hs
          subst hs
          simp [deleteByNameScan, hnm, hsel, hc]
          exact h sel0 j hsel (dictContains_del_of _ _ _ hj)
        · intro sel j hs hj
          simp [deleteByNameScan, hnm, hsel, hc] at hs
          subst hs
          simp [deleteByNameScan, hnm, hsel, hc]
          exact h _ j hsel hj
    · have he : deleteByNameScan m nm (p :: rest) = deleteByNameScan m nm rest := by
        simp [deleteByNameScan, hnm]
      rw [he]
      exact ih m h

theorem selectedSub_delete_by_name (l : List String) :
    ∀ m : DataManager, SelectedSub m → SelectedSub (m.delete_by_name l).1 := by
  induction l with
  | nil => intro m h; exact h
  | cons nm rest ih =>
    intro m h
    unfold DataManager.delete_by_name
    have hscan : SelectedSub (deleteByNameScan m nm m.stored_data).1 :=
      selectedSub_scan nm m.stored_data m h
    cases hres : deleteByNameScan m nm m.stored_data with
    | mk m1 e =>
      cases e with
      | none =>
        simp only
        refine ih m1 ?_
        have : (deleteByNameScan m nm m.stored_data).1 = m1 := by rw [hres]
        rwa [this] at hscan
      | some err =>
        simp only
        have : (deleteByNameScan m nm m.stored_data).1 = m1 := by rw [hres]
        rwa [this] at hscan

theorem selectedSub_stepOp (m : DataManager) (op : Op) (h : SelectedSub m) :
    SelectedSub (stepOp m op).1 := by
  cases op with
  | add l => exact selectedSub_add_data m l
  | getById l => exact selectedSub_get_by_id m l
  | getByName l => exact selectedSub_get_by_name m l
  | delData i t a => exact selectedSub_delete_data m i t a h
  | delById l => exact selectedSub_delete_by_id l m h
  | delByName l => exact selectedSub_delete_by_name l m h

theorem selectedSub_runOps (ops : List Op) :
    SelectedSub (runOps freshManager ops) := by
  unfold runOps
  exact foldl_preserves SelectedSub _ (fun st op h => selectedSub_stepOp st op h)
    ops freshManager selectedSub_fresh

theorem runAdds_stored_covers (batches : List (List Data)) :
    ∀ (m : DataManager) (b : List Data) (d : Data), b ∈ batches → d ∈ b →
      dictContains (runAdds m batches).stored_data d.id = true := by
  induction batches with
  | nil => intro m b d hb _; cases hb
  | cons b0 rest ih =>
    intro m b d hb hd
    rcases List.mem_cons.mp hb with h1 | h1
    · subst h1
      exact runAdds_stored_mono (m.add_data b) rest d.id
        (add_data_stored_covers m b d hd)
    · exact ih (m.add_data b0) b d h1 hd

/-- The manager obtained by registering the dataset `(1, "A")` on a fresh
manager; a concrete state used to instantiate the general theorems. -/
def addedManager : DataManager :=
  runOps freshManager [Op.add [⟨1, "A"⟩]]

/-- The manager obtained by registering the dataset `(1, "A")` and then
calling `delete_data` on it, which removes the `_selected_data`
attribute. -/
def attrDeletedManager : DataManager :=
  runOps freshManager [Op.add [⟨1, "A"⟩], Op.delData 1 0 false]

/-- The manager obtained by registering a dataset whose display name is
`"Foo"` on a fresh manager. -/
def fooManager : DataManager :=
  runOps freshManager [Op.add [⟨1, "Foo"⟩]]

/-- C1: after any sequence of `add_data` calls, every dataset identifier
passed to any of the calls is registered in `stored_data`, and `get_by_id`
on that identifier returns a mapping containing it (no deletion operation
having occurred). -/
theorem add_data_retrievable (m : DataManager) (batches : List (List Data))
    (b : List Data) (d : Data) (hb : b ∈ batches) (hd : d ∈ b) :
    dictContains (runAdds m batches).stored_data d.id = true
    ∧ dictContains ((runAdds m batches).get_by_id [d.id]).2 d.id = true := by
  have hstored := runAdds_stored_covers batches m b d hb hd
  exact ⟨hstored, get_by_id_singleton _ _ hstored⟩

theorem add_data_retrievable_witness :
    ((([⟨1, "A"⟩] : List Data) ∈ ([[⟨1, "A"⟩]] : List (List Data)))
      ∧ ((⟨1, "A"⟩ : Data) ∈ ([⟨1, "A"⟩] : List Data)))
    ∧ (dictContains (runAdds freshManager [[⟨1, "A"⟩]]).stored_data 1 = true
      ∧ dictContains ((runAdds freshManager [[⟨1, "A"⟩]]).get_by_id [1]).2 1 = true) :=
  ⟨⟨by decide, by decide⟩,
    add_data_retrievable freshManager [[⟨1, "A"⟩]] [⟨1, "A"⟩] ⟨1, "A"⟩
      (by decide) (by decide)⟩

/-- C4: in every manager state reachable from a fresh manager by a sequence
of registry calls, every identifier present in `_selected_data` is also
present in `stored_data`. -/
theorem selected_in_stored (ops : List Op) (sel : List (Nat × DataState)) (j : Nat)
    (hsel : (runOps freshManager ops)._selected_data = some sel)
    (hj : dictContains sel j = true) :
    dictContains (runOps freshManager ops).stored_data j = true :=
  selectedSub_runOps ops sel j hsel hj

theorem selected_in_stored_witness :
    ((runOps freshManager [Op.add [⟨1, "A"⟩]])._selected_data
        = some [(1, { data := ⟨1, "A"⟩ })]
      ∧ dictContains [(1, ({ data := ⟨1, "A"⟩ } : DataState))] 1 = true)
    ∧ dictContains (runOps freshManager [Op.add [⟨1, "A"⟩]]).stored_data 1 = true :=
  ⟨⟨by decide, by decide⟩,
    selected_in_stored [Op.add [⟨1, "A"⟩]] [(1, { data := ⟨1, "A"⟩ })] 1
      (by decide) (by decide)⟩

/-- C5: registering two datasets that derive the same display name through
`rename` yields distinct labels: the first keeps the base name, the second
gets the counter suffix `" [1]"`. -/
theorem rename_collision (m : DataManager) (name : String)
    (h : dictContains m.data_name_dict (display_base name) = false) :
    (m.rename name).1 = display_base name
    ∧ ((m.rename name).2.rename name).1 = display_base name ++ " [1]"
    ∧ (m.rename name).1 ≠ ((m.rename name).2.rename name).1 := by
  have hfirst : m.rename name = (display_base name,
      { m with data_name_dict := dictSet m.data_name_dict (display_base name) 0 }) := by
    simp [DataManager.rename, h]
  have hcontains : dictContains (dictSet m.data_name_dict (display_base name) 0)
      (display_base name) = true := dictContains_set_self _ _ _
  have hget : dictGet (dictSet m.data_name_dict (display_base name) 0)
      (display_base name) = some 0 := dictGet_set_self _ _ _
  have hone : toString (0 + 1 : Nat) = "1" := rfl
  have hsecond : ((m.rename name).2.rename name).1 = display_base name ++ " [1]" := by
    rw [hfirst]
    simp only [DataManager.rename, hcontains, if_pos, hget, Option.getD_some, hone]
    rw [String.append_assoc, String.append_assoc]
    rfl
  refine ⟨by rw [hfirst], hsecond, ?_⟩
  intro heq
  rw [hsecond] at heq
  have heq2 : display_base name = display_base name ++ " [1]" := by
    rw [hfirst] at heq
    exact heq
  have hlen := congrArg String.length heq2
  rw [String.length_append] at hlen
  have h4 : (" [1]" : String).length = 4 := rfl
  rw [h4] at hlen
  omega

theorem rename_collision_witness :
    dictContains freshManager.data_name_dict (display_base "Foo") = false
    ∧ ((freshManager.rename "Foo").1 = display_base "Foo"
      ∧ ((freshManager.rename "Foo").2.rename "Foo").1 = display_base "Foo" ++ " [1]"
      ∧ (freshManager.rename "Foo").1 ≠ ((freshManager.rename "Foo").2.rename "Foo").1) :=
  ⟨by decide, rename_collision freshManager "Foo" (by decide)⟩

/-- C2: the frame-range dialog accepts exactly under the spec's conditions
(first/last nonnegative, increment at least 1, first ≤ last, last below the
frame count) and rejects first=5, last=2; but on the accepted input
first=0, last=9, increment=2 the code computes
`range(0, 9 + 2, 2) = [0, 2, 4, 6, 8, 10]`, not the `[0, 2, 4, 6, 8]` the
spec states — frame 10 exceeds both `last` and, with 10 frames, the
validated bound `n_frames - 1`. -/
theorem ask_frame_range_off_by_increment :
    (∀ first last increment n_frames : Int, ∀ single : Bool,
      (ask_frame_range n_frames false
          [DialogEvent.ok (some first) (some last) (some increment) single]).isSome
        = spec_frame_accept first last increment n_frames)
    ∧ ask_frame_range 10 false [DialogEvent.ok (some 5) (some 2) (some 1) true] = none
    ∧ (ask_frame_range 10 false
        [DialogEvent.ok (some 0) (some 9) (some 2) true]).map FrameParams.frames
        = some [0, 2, 4, 6, 8, 10] := by
  refine ⟨?_, by decide, by decide⟩
  intro f l i n s
  simp only [ask_frame_range, askLoop, spec_frame_accept]
  split_ifs with h1 h2 h3 h4 <;>
    simp [askLoop, Bool.and_eq_true, decide_eq_true_eq] <;> omega

/-- C3: `extract_ascii_data` turns the single-column file "1\n2\n3\n" into
the numeric sequence [1, 2, 3]; turns the comma-terminated "1,\n2,\n3,\n"
into the same sequence after stripping each line's final character; and on
a file with inconsistent line terminators it raises an error carrying a
descriptive message. -/
theorem extract_ascii_cases :
    extract_ascii_data "test.txt" ["1", "2", "3"] = ExtractResult.ok [1, 2, 3]
    ∧ extract_ascii_data "test.txt" ["1,", "2,", "3,"] = ExtractResult.ok [1, 2, 3]
    ∧ (∃ msg, extract_ascii_data "test.txt" ["1,", "2", "3"] = ExtractResult.error msg) :=
  ⟨by decide, by decide, "could not convert string to float: ", by decide⟩

/-- C6: `delete_by_name` on a name that matches a registered dataset raises
`NameError` (the statement `del self.stored_data[data.id]` references the
out-of-scope name `data`), leaving the matched identifier still present in
`stored_data`; only the `_selected_data` entry was removed before the
raise. -/
theorem delete_by_name_raises :
    (fooManager.delete_by_name ["Foo"]).2 = some PyErr.nameError
    ∧ dictContains (fooManager.delete_by_name ["Foo"]).1.stored_data 1 = true
    ∧ (fooManager.delete_by_name ["Foo"]).1._selected_data = some [] :=
  ⟨by decide, by decide, by decide⟩

/-- C7 counterexample: after `add_data` of dataset 1 followed by
`delete_data` of 1 (which removes the `_selected_data` attribute),
`delete_by_id` of the absent identifier 2 raises `AttributeError` instead
of being a silent no-op. -/
theorem delete_absent_attribute_error :
    dictContains attrDeletedManager.stored_data 2 = false
    ∧ (attrDeletedManager.delete_by_id [2]).2 = some PyErr.attributeError :=
  ⟨by decide, by decide⟩

/-- C7 (amended): provided the `_selected_data` attribute is present and
does not hold the identifier either, deleting an identifier absent from
`stored_data` via `delete_by_id` or `delete_data` is a no-op: no exception,
and the manager state is unchanged. -/
theorem delete_absent_noop (m : DataManager) (sel : List (Nat × DataState))
    (i t : Nat) (a : Bool)
    (hsel : m._selected_data = some sel)
    (hstored : dictContains m.stored_data i = false)
    (hselc : dictContains sel i = false) :
    m.delete_by_id [i] = (m, none) ∧ m.delete_data i t a = (m, none) := by
  constructor
  · simp [DataManager.delete_by_id, hsel, hstored, hselc]
    rw [← hsel]
  · simp [DataManager.delete_data, hsel, hstored, hselc]
    rw [← hsel]

theorem delete_absent_noop_witness :
    (addedManager._selected_data = some [(1, { data := ⟨1, "A"⟩ })]
      ∧ dictContains addedManager.stored_data 2 = false
      ∧ dictContains [(1, ({ data := ⟨1, "A"⟩ } : DataState))] 2 = false)
    ∧ (addedManager.delete_by_id [2] = (addedManager, none)
      ∧ addedManager.delete_data 2 0 false = (addedManager, none)) :=
  ⟨⟨by decide, by decide, by decide⟩,
    delete_absent_noop addedManager [(1, { data := ⟨1, "A"⟩ })] 2 0 false
      (by decide) (by decide) (by decide)⟩

/-- C8 counterexample: `set_theory` on an instance that overrides nothing
raises `ValueError` rather than being a benign default. -/
theorem plugin_set_theory_raises :
    defaultPlugin.set_theory [] = Except.error PyErr.valueError
    ∧ defaultPlugin.set_theory [] ≠ Except.ok () :=
  ⟨rfl, fun h => Except.noConfusion h⟩

/-- C8 (amended): on an instance that overrides nothing, every `PluginBase`
method except `load_data`, `load_folder`, `set_theory` and `on_perspective`
is a no-op or returns a benign default (empty list, flag, or stored
field); `load_data` and `load_folder` raise (`raise NotImplemented`),
`set_theory` raises `ValueError`, and `on_perspective` fails on the `None`
parent. -/
theorem plugin_default_behaviour :
    defaultPlugin.clear_panel = defaultPlugin
    ∧ defaultPlugin.get_extensions = (none, "")
    ∧ defaultPlugin.can_load_data = false
    ∧ defaultPlugin.use_data = true
    ∧ defaultPlugin.is_in_use 0 = false
    ∧ defaultPlugin.delete_data 0 = defaultPlugin
    ∧ defaultPlugin.is_always_active = false
    ∧ defaultPlugin.populate_menu 0 = []
    ∧ (defaultPlugin.get_panels 0).2 = []
    ∧ defaultPlugin.get_tools = []
    ∧ defaultPlugin.get_context_menu = []
    ∧ defaultPlugin.get_perspective = []
    ∧ defaultPlugin.post_init = defaultPlugin
    ∧ defaultPlugin.set_default_perspective = true
    ∧ defaultPlugin.set_state = defaultPlugin
    ∧ defaultPlugin.set_data [] = defaultPlugin
    ∧ defaultPlugin.on_set_state_helper = defaultPlugin
    ∧ defaultPlugin.load_data = Except.error PyErr.typeError
    ∧ defaultPlugin.load_folder = Except.error PyErr.typeError
    ∧ defaultPlugin.set_theory [] = Except.error PyErr.valueError
    ∧ defaultPlugin.on_perspective = Except.error PyErr.attributeError :=
  ⟨rfl, rfl, rfl, rfl, rfl, rfl, rfl, rfl, rfl, rfl, rfl, rfl, rfl, rfl, rfl,
    rfl, rfl, rfl, rfl, rfl, rfl⟩

/-- C9: when `data_id` is selected, `delete_data` removes the whole
`_selected_data` attribute (so every other selected identifier is dropped
with it) and returns normally, and a subsequent `get_selected_data` call
fails with `AttributeError`. -/
theorem delete_data_drops_selection (m : DataManager) (sel : List (Nat × DataState))
    (data_id theory_id : Nat) (delete_all : Bool)
    (hsel : m._selected_data = some sel)
    (hmem : dictContains sel data_id = true) :
    (m.delete_data data_id theory_id delete_all).1._selected_data = none
    ∧ (m.delete_data data_id theory_id delete_all).2 = none
    ∧ (m.delete_data data_id theory_id delete_all).1.get_selected_data
        = Except.error PyErr.attributeError := by
  have h1 : (m.delete_data data_id theory_id delete_all).1._selected_data = none := by
    simp [DataManager.delete_data, hsel, hmem]
  refine ⟨h1, ?_, ?_⟩
  · simp [DataManager.delete_data, hsel, hmem]
  · simp [DataManager.get_selected_data, h1]

theorem delete_data_drops_selection_witness :
    (addedManager._selected_data = some [(1, { data := ⟨1, "A"⟩ })]
      ∧ dictContains [(1, ({ data := ⟨1, "A"⟩ } : DataState))] 1 = true)
    ∧ ((addedManager.delete_data 1 0 false).1._selected_data = none
      ∧ (addedManager.delete_data 1 0 false).2 = none
      ∧ (addedManager.delete_data 1 0 false).1.get_selected_data
          = Except.error PyErr.attributeError) :=
  ⟨⟨by decide, by decide⟩,
    delete_data_drops_selection addedManager [(1, { data := ⟨1, "A"⟩ })] 1 0 false
      (by decide) (by decide)⟩

/-- C10 counterexample: if the user first submits an OK attempt that fails
validation with the single-file button off and then cancels, the cancel
return carries `file = False`, not the `True` the claim states. -/
theorem ask_cancel_after_attempt :
    ask_frame_range 10 false
        [DialogEvent.ok (some 5) (some 2) (some 1) false, DialogEvent.cancel]
      = some { frames := [], inc := none, file := false }
    ∧ ask_frame_range 10 false
        [DialogEvent.ok (some 5) (some 2) (some 1) false, DialogEvent.cancel]
      ≠ some { frames := [], inc := none, file := true } :=
  ⟨by decide, by decide⟩

/-- C10 (amended): cancelling the dialog as the first action returns
`{frames: [], inc: None, file: True}` (after rejected OK attempts the
`file` field instead holds the last submitted single-file choice), and
`on_convert`, upon receiving an empty `frames` list, returns before writing
any output file. -/
theorem ask_cancel_first (n_frames : Int) (is_bsl : Bool) :
    ask_frame_range n_frames is_bsl [DialogEvent.cancel]
      = some { frames := [], inc := none, file := true }
    ∧ (3 < n_frames →
      on_convert_frame_selection n_frames { frames := [], inc := none, file := true }
        = none) := by
  refine ⟨rfl, ?_⟩
  intro h
  simp [on_convert_frame_selection, h]

theorem ask_cancel_first_witness :
    ((3 : Int) < 10
      ∧ ask_frame_range 10 false [DialogEvent.cancel]
          = some { frames := [], inc := none, file := true })
    ∧ on_convert_frame_selection 10 { frames := [], inc := none, file := true }
        = none :=
  ⟨⟨by decide, (ask_cancel_first 10 false).1⟩, (ask_cancel_first 10 false).2 (by decide)⟩
